import Mathlib

/-!
Verification of the reader core of a blockchain-tailing library
(`AbstractActionReader`).  The mutable class is embedded as a pure state
type `ReaderState`; each public method becomes a function from a state to
a result paired with the post-state.  A thrown error is an `Except.error`
paired with the state at the moment of the throw, since in the source
mutations performed before a throw persist on the object.  The chain
adapter (the two abstract methods) is a pure structure `Adapter`; a
chain reorganisation between calls is modelled by passing a different
adapter to a later call.
-/

/-- Metadata of a block: its number, its hash, and the hash of the block
it chains onto.  Mirrors the `BlockInfo` interface. -/
structure BlockInfo where
  blockNumber : Int
  blockHash : String
  previousBlockHash : String
deriving Repr, DecidableEq

/-- A block as seen by the reader.  The action payload is never inspected
by the reader core, so only `blockInfo` is modelled. -/
structure Block where
  blockInfo : BlockInfo
deriving Repr, DecidableEq

/-- The adapter collaborator: the two abstract methods of the class,
`getHeadBlockNumber` and `getBlock`.  Both are modelled as pure and
total; within one call to a reader operation the chain does not change. -/
structure Adapter where
  getHeadBlockNumber : Int
  getBlock : Int → Block

/-- The mutable fields of `AbstractActionReader`, including the
constructor parameters (which are stored on the instance:
`startAtBlock` is reassigned by `nextBlock`). -/
structure ReaderState where
  headBlockNumber : Int
  currentBlockNumber : Int
  isFirstBlock : Bool
  currentBlockData : Option Block
  blockHistory : List Block
  startAtBlock : Int
  onlyIrreversible : Bool
  maxHistoryLength : Nat
deriving Repr, DecidableEq

/-- The constructor: `currentBlockNumber = startAtBlock - 1`, head
unknown (0), empty history, `isFirstBlock = true`. -/
def ReaderState.init (startAtBlock : Int) (onlyIrreversible : Bool)
    (maxHistoryLength : Nat) : ReaderState :=
  { headBlockNumber := 0
    currentBlockNumber := startAtBlock - 1
    isFirstBlock := true
    currentBlockData := none
    blockHistory := []
    startAtBlock := startAtBlock
    onlyIrreversible := onlyIrreversible
    maxHistoryLength := maxHistoryLength }

/-- Step 1 of `nextBlock`: refresh the head block number when on the head
block or when the head is unknown (`!this.headBlockNumber`, i.e. 0). -/
def refreshHead (a : Adapter) (s : ReaderState) : ReaderState :=
  if s.currentBlockNumber = s.headBlockNumber ∨ s.headBlockNumber = 0 then
    { s with headBlockNumber := a.getHeadBlockNumber }
  else s

/-- Step 2 of `nextBlock`: a negative `currentBlockNumber` with empty
history wraps to the end of the chain, and `startAtBlock` is reassigned
to the resolved number plus one. -/
def resolveNegativeStart (s : ReaderState) : ReaderState :=
  if s.currentBlockNumber < 0 ∧ s.blockHistory.length = 0 then
    { s with
      currentBlockNumber := s.headBlockNumber + s.currentBlockNumber
      startAtBlock := s.headBlockNumber + s.currentBlockNumber + 1 }
  else s

/-- The commit step of `nextBlock`: push the old current block (if any)
onto history, trim history to `maxHistoryLength` by dropping the oldest
entries (`splice(0, length - maxHistoryLength)`), and adopt the
validated block as current. -/
def commitBlock (u : Block) (s : ReaderState) : ReaderState :=
  let hist1 := match s.currentBlockData with
    | some b => s.blockHistory ++ [b]
    | none => s.blockHistory
  { s with
    blockHistory := hist1.drop (hist1.length - s.maxHistoryLength)
    currentBlockData := some u
    currentBlockNumber := u.blockInfo.blockNumber }

/-- The rollback loop of `resolveFork`, on the reversed history (newest
entry first, matching the newest-first scan of the source loop, which
reads `blockHistory.slice(-1)` and pops from the end).  Refetch the block
at the current block number; if its previous hash matches the newest
history entry, stop with the refetched block adopted and the entry kept;
otherwise adopt the entry, pop it, and continue. -/
def resolveForkRev (a : Adapter) : Block → List Block → Block × List Block
  | cur, [] => (cur, [])
  | cur, prev :: rest =>
    let refetched := a.getBlock cur.blockInfo.blockNumber
    if refetched.blockInfo.previousBlockHash = prev.blockInfo.blockHash then
      (refetched, prev :: rest)
    else
      resolveForkRev a prev rest

/-- The rollback loop on the history in its stored order (oldest first). -/
def resolveForkLoop (a : Adapter) (cur : Block) (history : List Block) :
    Block × List Block :=
  let r := resolveForkRev a cur history.reverse
  (r.1, r.2.reverse)

/-- Fork resolution.  Fails when `currentBlockData` is absent on entry.
After the loop, when history was exhausted the default `historyExhausted`
handler throws, so control never reaches the final assignment that reads
the newest history entry; otherwise `currentBlockNumber` becomes one past
the newest remaining entry. -/
def resolveFork (a : Adapter) (s : ReaderState) :
    Except String Unit × ReaderState :=
  match s.currentBlockData with
  | none =>
    (Except.error "`currentBlockData` must not be null when initiating fork resolution.", s)
  | some cur =>
    let r := resolveForkLoop a cur s.blockHistory
    let s1 := { s with currentBlockData := some r.1, blockHistory := r.2 }
    if h : r.2.length = 0 then
      (Except.error "Fork resolution history has been exhausted, and no history exhaustion handling has been implemented.", s1)
    else
      (Except.ok (),
        { s1 with
          currentBlockNumber :=
            (r.2.getLast (List.ne_nil_of_length_pos (Nat.pos_of_ne_zero h))).blockInfo.blockNumber + 1 })

/-- Steps 4 and 5 of `nextBlock`: recompute `isFirstBlock` and return the
current block with the two flags, or throw when no current block exists. -/
def finishNextBlock (s : ReaderState) (isRollback isNewBlock : Bool) :
    Except String (Block × Bool × Bool) × ReaderState :=
  let s1 := { s with isFirstBlock := decide (s.currentBlockNumber = s.startAtBlock) }
  match s1.currentBlockData with
  | none => (Except.error "currentBlockData must not be null.", s1)
  | some b => (Except.ok (b, isRollback, isNewBlock), s1)

/-- The `nextBlock` method.  Result triple is
(block, isRollback, isNewBlock). -/
def nextBlock (a : Adapter) (s0 : ReaderState) :
    Except String (Block × Bool × Bool) × ReaderState :=
  let s1 := refreshHead a s0
  let s2 := resolveNegativeStart s1
  if s2.currentBlockNumber < s2.headBlockNumber then
    let u := a.getBlock (s2.currentBlockNumber + 1)
    let expectedHash := match s2.currentBlockData with
      | some b => b.blockInfo.blockHash
      | none => "INVALID"
    if expectedHash = u.blockInfo.previousBlockHash ∨ s2.blockHistory.length = 0 then
      finishNextBlock (commitBlock u s2) false true
    else
      match resolveFork a s2 with
      | (Except.ok _, s3) =>
        finishNextBlock { s3 with headBlockNumber := a.getHeadBlockNumber } true true
      | (Except.error e, s3) => (Except.error e, s3)
  else
    finishNextBlock s2 false false

/-- The scan of `seekToBlock` computing `toDelete`: starting from -1,
walk the history from the newest entry to the oldest, stopping at the
first entry whose number equals the target and adding one for every
entry passed over before that. -/
def toDeleteGo (blockNumber : Int) : List Block → Int → Int
  | [], acc => acc
  | b :: rest, acc =>
    if b.blockInfo.blockNumber = blockNumber then acc
    else toDeleteGo blockNumber rest (acc + 1)

/-- The value of `toDelete` after the scan loop of `seekToBlock`. -/
def computeToDelete (history : List Block) (blockNumber : Int) : Int :=
  toDeleteGo blockNumber history.reverse (-1)

/-- The `seekToBlock` method.  Clears the current block and head first,
then validates the target, handles the `blockNumber == 1` reset, runs the
history scan (`splice(toDelete)` keeps the first `toDelete` entries, then
`pop` moves the last kept entry to `currentBlockData`), and finally
positions at `blockNumber - 1`, fetching that block when nothing was
adopted from history. -/
def seekToBlock (a : Adapter) (blockNumber : Int) (s0 : ReaderState) :
    Except String Unit × ReaderState :=
  let s := { s0 with currentBlockData := none, headBlockNumber := 0 }
  if blockNumber < s.startAtBlock then
    (Except.error "Cannot seek to block before configured startAtBlock.", s)
  else if blockNumber = 1 then
    (Except.ok (), { s with blockHistory := [], currentBlockNumber := 0 })
  else
    let toDelete := computeToDelete s.blockHistory blockNumber
    let s2 :=
      if 0 ≤ toDelete then
        let kept := s.blockHistory.take toDelete.toNat
        { s with blockHistory := kept.dropLast, currentBlockData := kept.getLast? }
      else s
    let s3 := { s2 with currentBlockNumber := blockNumber - 1 }
    match s3.currentBlockData with
    | some _ => (Except.ok (), s3)
    | none =>
      (Except.ok (), { s3 with currentBlockData := some (a.getBlock (blockNumber - 1)) })

/-!
Concrete chains and reader states used by the claim theorems below.
-/

/-- A hash-consistent chain: block `n` has hash `H<n>` and chains onto
`H<n-1>`. -/
def chainBlock (n : Int) : Block :=
  { blockInfo :=
    { blockNumber := n
      blockHash := "H" ++ toString n
      previousBlockHash := "H" ++ toString (n - 1) } }

/-- An adapter serving the hash-consistent chain with head block 100. -/
def chainAdapter : Adapter :=
  { getHeadBlockNumber := 100, getBlock := fun n => chainBlock n }

/-- Blocks of an alternative chain `A`, used to populate histories. -/
def histBlock (n : Int) : Block :=
  { blockInfo :=
    { blockNumber := n
      blockHash := "A" ++ toString n
      previousBlockHash := "A" ++ toString (n - 1) } }

/-- An adapter whose fetched blocks carry a recognisable marker hash, so
a fetch can be distinguished from history reuse in the post-state. -/
def markerAdapter : Adapter :=
  { getHeadBlockNumber := 10
    getBlock := fun n =>
      { blockInfo := { blockNumber := n, blockHash := "FETCHED", previousBlockHash := "FETCHED" } } }

/-- A reader that has committed blocks 5..8 of chain `A`: history holds
blocks 5,6,7,8 (oldest first) and block 8 is current. -/
def seekState : ReaderState :=
  { headBlockNumber := 10
    currentBlockNumber := 8
    isFirstBlock := false
    currentBlockData := some (histBlock 8)
    blockHistory := [histBlock 5, histBlock 6, histBlock 7, histBlock 8]
    startAtBlock := 1
    onlyIrreversible := false
    maxHistoryLength := 600 }

/-- An adapter serving a reorganised chain `B` whose hashes never match
chain `A`. -/
def forkAdapter : Adapter :=
  { getHeadBlockNumber := 10
    getBlock := fun n =>
      { blockInfo :=
        { blockNumber := n
          blockHash := "B" ++ toString n
          previousBlockHash := "B" ++ toString (n - 1) } } }

/-- A reader on chain `A` at block 9 with `maxHistoryLength = 2` and
history holding only blocks 7 and 8 — a fork deeper than 2 blocks cannot
be resolved from this state. -/
def forkState : ReaderState :=
  { headBlockNumber := 10
    currentBlockNumber := 9
    isFirstBlock := false
    currentBlockData := some (histBlock 9)
    blockHistory := [histBlock 7, histBlock 8]
    startAtBlock := 1
    onlyIrreversible := false
    maxHistoryLength := 2 }

/-- A reader state in mid fork resolution on the hash-consistent chain:
current block 96, history holding block 95. -/
def resolveState : ReaderState :=
  { headBlockNumber := 100
    currentBlockNumber := 96
    isFirstBlock := false
    currentBlockData := some (chainBlock 96)
    blockHistory := [chainBlock 95]
    startAtBlock := 1
    onlyIrreversible := false
    maxHistoryLength := 600 }

/-- A reader that has committed block 1 of chain `A` as its very first
block: `currentBlockData` is present but the history is still empty. -/
def claim2state : ReaderState :=
  { headBlockNumber := 5
    currentBlockNumber := 1
    isFirstBlock := true
    currentBlockData := some { blockInfo := { blockNumber := 1, blockHash := "A1", previousBlockHash := "A0" } }
    blockHistory := []
    startAtBlock := 1
    onlyIrreversible := false
    maxHistoryLength := 600 }

/-- An adapter that has reorganised onto chain `B`, whose hashes never
match chain `A`. -/
def claim2adapter : Adapter :=
  { getHeadBlockNumber := 5
    getBlock := fun n =>
      { blockInfo :=
        { blockNumber := n
          blockHash := "B" ++ toString n
          previousBlockHash := "B" ++ toString (n - 1) } } }

/-- Iterated advancing: the reader state after `k` further `nextBlock`
calls against a fixed adapter. -/
def runAdvance (a : Adapter) (s : ReaderState) : Nat → ReaderState
  | 0 => s
  | Nat.succ k => (nextBlock a (runAdvance a s k)).2

/-- The reader constructed with `startAtBlock = -5`. -/
def tailStart : ReaderState := ReaderState.init (-5) false 600

/-- Invariant of the negative-start run after its second call: the
resolved `startAtBlock` is 95, the head is 100, the reader is past its
first block but not past the head, and the current block is the chain
block at `currentBlockNumber`. -/
def tailInv (s : ReaderState) : Prop :=
  s.startAtBlock = 95 ∧ s.headBlockNumber = 100
  ∧ 95 < s.currentBlockNumber ∧ s.currentBlockNumber ≤ 100
  ∧ s.currentBlockData = some (chainBlock s.currentBlockNumber)

/-- Projection facts for `finishNextBlock`: the post-state only updates
`isFirstBlock`, and a successful result returns the current block with
exactly the flags passed in. -/
lemma finishNextBlock_spec (s : ReaderState) (rb nb : Bool) :
    (finishNextBlock s rb nb).2
      = { s with isFirstBlock := decide (s.currentBlockNumber = s.startAtBlock) }
    ∧ ∀ b rb2 nb2, (finishNextBlock s rb nb).1 = Except.ok (b, rb2, nb2) →
        s.currentBlockData = some b ∧ rb2 = rb ∧ nb2 = nb := by
  unfold finishNextBlock
  cases hd : s.currentBlockData with
  | none => simp [hd]
  | some c =>
    refine ⟨by simp [hd], ?_⟩
    intro b rb2 nb2 h
    simp [hd] at h
    obtain ⟨h1, h2, h3⟩ := h
    exact ⟨by rw [h1], h2.symm, h3.symm⟩

/-- The rollback loop never lengthens the (reversed) history. -/
lemma resolveForkRev_length_le (a : Adapter) (cur : Block) (l : List Block) :
    (resolveForkRev a cur l).2.length ≤ l.length := by
  induction l generalizing cur with
  | nil => simp [resolveForkRev]
  | cons p t ih =>
    simp only [resolveForkRev]
    split
    · simp
    · exact le_trans (ih p) (Nat.le_succ _)

/-- The rollback loop never lengthens the history. -/
lemma resolveForkLoop_length_le (a : Adapter) (cur : Block) (l : List Block) :
    (resolveForkLoop a cur l).2.length ≤ l.length := by
  unfold resolveForkLoop
  simpa using resolveForkRev_length_le a cur l.reverse

/-- Projection facts for `resolveFork`: the history never grows, the
history bound and `maxHistoryLength` are untouched, and on success the
current block is present. -/
lemma resolveFork_spec (a : Adapter) (s : ReaderState) :
    (resolveFork a s).2.blockHistory.length ≤ s.blockHistory.length
    ∧ (resolveFork a s).2.maxHistoryLength = s.maxHistoryLength
    ∧ ∀ u, (resolveFork a s).1 = Except.ok u →
        ∃ c, (resolveFork a s).2.currentBlockData = some c := by
  cases hd : s.currentBlockData with
  | none => simp [resolveFork, hd]
  | some cur =>
    simp only [resolveFork, hd]
    split
    · refine ⟨?_, rfl, ?_⟩
      · simpa using resolveForkLoop_length_le a cur s.blockHistory
      · intro u hu
        simp at hu
    · refine ⟨?_, rfl, ?_⟩
      · simpa using resolveForkLoop_length_le a cur s.blockHistory
      · intro u _
        exact ⟨_, rfl⟩

/-- Head refresh only writes `headBlockNumber`. -/
@[simp] lemma refreshHead_currentBlockData (a : Adapter) (s : ReaderState) :
    (refreshHead a s).currentBlockData = s.currentBlockData := by
  unfold refreshHead
  split <;> rfl

/-- Head refresh leaves the history alone. -/
@[simp] lemma refreshHead_blockHistory (a : Adapter) (s : ReaderState) :
    (refreshHead a s).blockHistory = s.blockHistory := by
  unfold refreshHead
  split <;> rfl

/-- Head refresh leaves the current block number alone. -/
@[simp] lemma refreshHead_currentBlockNumber (a : Adapter) (s : ReaderState) :
    (refreshHead a s).currentBlockNumber = s.currentBlockNumber := by
  unfold refreshHead
  split <;> rfl

/-- Head refresh leaves the history bound alone. -/
@[simp] lemma refreshHead_maxHistoryLength (a : Adapter) (s : ReaderState) :
    (refreshHead a s).maxHistoryLength = s.maxHistoryLength := by
  unfold refreshHead
  split <;> rfl

/-- Negative-start resolution only writes `currentBlockNumber` and
`startAtBlock`. -/
@[simp] lemma resolveNegativeStart_currentBlockData (s : ReaderState) :
    (resolveNegativeStart s).currentBlockData = s.currentBlockData := by
  unfold resolveNegativeStart
  split <;> rfl

/-- Negative-start resolution leaves the history alone. -/
@[simp] lemma resolveNegativeStart_blockHistory (s : ReaderState) :
    (resolveNegativeStart s).blockHistory = s.blockHistory := by
  unfold resolveNegativeStart
  split <;> rfl

/-- Negative-start resolution leaves the head alone. -/
@[simp] lemma resolveNegativeStart_headBlockNumber (s : ReaderState) :
    (resolveNegativeStart s).headBlockNumber = s.headBlockNumber := by
  unfold resolveNegativeStart
  split <;> rfl

/-- Negative-start resolution leaves the history bound alone. -/
@[simp] lemma resolveNegativeStart_maxHistoryLength (s : ReaderState) :
    (resolveNegativeStart s).maxHistoryLength = s.maxHistoryLength := by
  unfold resolveNegativeStart
  split <;> rfl

/-- The commit step adopts exactly the fetched block as current. -/
@[simp] lemma commitBlock_currentBlockData (u : Block) (s : ReaderState) :
    (commitBlock u s).currentBlockData = some u := rfl

/-- The committed history when a prior current block exists: the prior
block is appended and the oldest entries beyond the bound are dropped. -/
lemma commitBlock_blockHistory_some (u prior : Block) (s : ReaderState)
    (h : s.currentBlockData = some prior) :
    (commitBlock u s).blockHistory
      = (s.blockHistory ++ [prior]).drop
          ((s.blockHistory ++ [prior]).length - s.maxHistoryLength) := by
  unfold commitBlock
  rw [h]

/-- The committed history when no prior current block exists. -/
lemma commitBlock_blockHistory_none (u : Block) (s : ReaderState)
    (h : s.currentBlockData = none) :
    (commitBlock u s).blockHistory
      = s.blockHistory.drop (s.blockHistory.length - s.maxHistoryLength) := by
  unfold commitBlock
  rw [h]

/-- The commit step leaves the history bound alone. -/
@[simp] lemma commitBlock_maxHistoryLength (u : Block) (s : ReaderState) :
    (commitBlock u s).maxHistoryLength = s.maxHistoryLength := rfl

/-- Consecutive blocks of the hash-consistent chain link up. -/
lemma chainBlock_chain (n : Int) :
    (chainBlock (n + 1)).blockInfo.previousBlockHash
      = (chainBlock n).blockInfo.blockHash := by
  simp [chainBlock]

/-- Block numbers of the hash-consistent chain. -/
@[simp] lemma chainBlock_blockNumber (n : Int) :
    (chainBlock n).blockInfo.blockNumber = n := rfl

/-- Fetching from the chain adapter. -/
@[simp] lemma chainAdapter_getBlock (n : Int) :
    chainAdapter.getBlock n = chainBlock n := rfl

/-- The head of the chain adapter. -/
@[simp] lemma chainAdapter_head : chainAdapter.getHeadBlockNumber = 100 := rfl

/-- The commit step keeps `startAtBlock`. -/
@[simp] lemma commitBlock_startAtBlock (u : Block) (s : ReaderState) :
    (commitBlock u s).startAtBlock = s.startAtBlock := rfl

/-- The commit step keeps `headBlockNumber`. -/
@[simp] lemma commitBlock_headBlockNumber (u : Block) (s : ReaderState) :
    (commitBlock u s).headBlockNumber = s.headBlockNumber := rfl

/-- The commit step sets `currentBlockNumber` to the number of the
committed block. -/
@[simp] lemma commitBlock_currentBlockNumber (u : Block) (s : ReaderState) :
    (commitBlock u s).currentBlockNumber = u.blockInfo.blockNumber := rfl

/-- One `nextBlock` call against the fixed chain preserves `tailInv` and
leaves `isFirstBlock` false. -/
lemma tailInv_step (s : ReaderState) (h : tailInv s) :
    tailInv (nextBlock chainAdapter s).2
    ∧ (nextBlock chainAdapter s).2.isFirstBlock = false := by
  unfold tailInv at h
  obtain ⟨hstart, hhead, hlt, hle, hdata⟩ := h
  by_cases hc : s.currentBlockNumber = 100
  · -- caught up at the tip: no advance, flags recomputed only
    have href : refreshHead chainAdapter s = { s with headBlockNumber := 100 } := by
      unfold refreshHead
      rw [if_pos (Or.inl (by rw [hc, hhead]))]
      rfl
    have hneg : resolveNegativeStart { s with headBlockNumber := 100 }
        = { s with headBlockNumber := 100 } := by
      unfold resolveNegativeStart
      rw [if_neg]
      simp only [not_and]
      intro hc0
      omega
    simp only [nextBlock, href, hneg]
    split
    next hcc =>
      exfalso
      have hcc2 : s.currentBlockNumber < (100 : Int) := hcc
      omega
    next hcc =>
      rw [(finishNextBlock_spec _ false false).1]
      constructor
      · unfold tailInv
        refine ⟨by simpa using hstart, by simp, by simpa using hlt,
          by simpa using hle, by simpa using hdata⟩
      · dsimp only
        rw [hc, hstart]
        decide
  · -- strictly behind the head: commit the next chain block
    have hlt100 : s.currentBlockNumber < 100 := lt_of_le_of_ne hle hc
    have href : refreshHead chainAdapter s = s := by
      unfold refreshHead
      rw [if_neg]
      simp only [not_or]
      exact ⟨by omega, by omega⟩
    have hneg : resolveNegativeStart s = s := by
      unfold resolveNegativeStart
      rw [if_neg]
      simp only [not_and]
      intro hc0
      omega
    simp only [nextBlock, href, hneg]
    have humatch : (match s.currentBlockData with
        | some b => b.blockInfo.blockHash
        | none => "INVALID")
        = (chainAdapter.getBlock (s.currentBlockNumber + 1)).blockInfo.previousBlockHash := by
      rw [hdata]
      exact (chainBlock_chain s.currentBlockNumber).symm
    split
    next hcc =>
      split
      next hv =>
        rw [(finishNextBlock_spec _ false true).1]
        constructor
        · unfold tailInv
          refine ⟨by simp [hstart], by simp [hhead], ?_, ?_, ?_⟩
          · simp only [commitBlock_currentBlockNumber, chainAdapter_getBlock,
              chainBlock_blockNumber]
            omega
          · simp only [commitBlock_currentBlockNumber, chainAdapter_getBlock,
              chainBlock_blockNumber]
            omega
          · simp
        · simp only [commitBlock_currentBlockNumber, chainAdapter_getBlock,
            chainBlock_blockNumber, commitBlock_startAtBlock, hstart]
          simp only [decide_eq_false_iff_not]
          omega
      next hv =>
        exact absurd (Or.inl humatch) hv
    next hcc =>
      exfalso
      have hcc2 : ¬ (s.currentBlockNumber < s.headBlockNumber) := hcc
      omega

/-- C1: the claim as stated is false at its own concrete input: with
`startAtBlock = -5` and adapter head 100, the first `nextBlock` commits
block 95 (= 100 + (-5)), not block 96 (= 100 + (-5) + 1); the
constructor sets `currentBlockNumber = -6`, which wraps to 94, so block
95 is fetched. -/
theorem claim1_counterexample :
    chainAdapter.getHeadBlockNumber = 100
    ∧ (nextBlock chainAdapter (ReaderState.init (-5) false 600)).1
        = Except.ok (chainBlock 95, false, true)
    ∧ (chainBlock 95).blockInfo.blockNumber = 95
    ∧ (chainBlock 95).blockInfo.blockNumber ≠ 96 :=
  ⟨rfl, rfl, rfl, by decide⟩

/-- C3: evaluating `seekToBlock 5` on a reader whose history holds blocks
5,6,7,8 shows the invariant broken: the scan sets `toDelete = 2`, the
splice keeps blocks 5 and 6, the pop adopts block 6 as
`currentBlockData`, yet `currentBlockNumber` becomes 4 — so
`currentBlockData.blockInfo.blockNumber ≠ currentBlockNumber` after a
valid seek. -/
theorem claim3_code_eval :
    seekState.startAtBlock ≤ 5
    ∧ (seekToBlock markerAdapter 5 seekState).1 = Except.ok ()
    ∧ (seekToBlock markerAdapter 5 seekState).2.currentBlockData = some (histBlock 6)
    ∧ (seekToBlock markerAdapter 5 seekState).2.currentBlockNumber = 4
    ∧ (histBlock 6).blockInfo.blockNumber ≠ (4 : Int) :=
  ⟨by decide, rfl, rfl, rfl, by decide⟩

/-- C4: evaluating `seekToBlock 7` on a reader whose history holds blocks
5,6,7,8 refutes the claim: block 7 is present in history, yet the whole
history is discarded (not just the entries newer than block 7), the found
entry is not adopted, and the block is fetched from the adapter (the
post-state holds the marker block returned by `getBlock 6`). -/
theorem claim4_code_eval :
    histBlock 7 ∈ seekState.blockHistory
    ∧ (histBlock 7).blockInfo.blockNumber = 7
    ∧ (seekToBlock markerAdapter 7 seekState).1 = Except.ok ()
    ∧ (seekToBlock markerAdapter 7 seekState).2.blockHistory = []
    ∧ (seekToBlock markerAdapter 7 seekState).2.currentBlockData
        = some (markerAdapter.getBlock 6)
    ∧ markerAdapter.getBlock 6 ≠ histBlock 7 :=
  ⟨by decide, rfl, rfl, rfl, rfl, by decide⟩

/-- C5: the claim as stated is false: an invalid seek does throw before
any adapter call, but not before all state mutation — `currentBlockData`
is cleared and `headBlockNumber` is zeroed before the validity check, so
the post-state differs from the pre-state. -/
theorem claim5_counterexample :
    (seekToBlock markerAdapter 0 seekState).1
      = Except.error "Cannot seek to block before configured startAtBlock."
    ∧ (0 : Int) < seekState.startAtBlock
    ∧ seekState.currentBlockData = some (histBlock 8)
    ∧ (seekToBlock markerAdapter 0 seekState).2.currentBlockData = none
    ∧ seekState.headBlockNumber = 10
    ∧ (seekToBlock markerAdapter 0 seekState).2.headBlockNumber = 0 :=
  ⟨rfl, by decide, rfl, rfl, rfl, rfl⟩

/-- C7: with `maxHistoryLength = 2` and a fork deeper than 2 blocks
(every chain-B hash differs from the chain-A history), the rollback loop
pops both history entries without a match, the history-exhausted handler
runs, and its default implementation throws — `nextBlock` propagates the
fatal error instead of continuing. -/
theorem claim7_code_eval :
    forkState.maxHistoryLength = 2
    ∧ forkState.blockHistory.length = 2
    ∧ (nextBlock forkAdapter forkState).1
        = Except.error "Fork resolution history has been exhausted, and no history exhaustion handling has been implemented."
    ∧ (nextBlock forkAdapter forkState).2.blockHistory = [] :=
  ⟨rfl, rfl, rfl, rfl⟩

/-!
Helper lemmas shared by the claim theorems.
-/

/-- C5 (amended): an invalid seek target (`blockNumber < startAtBlock`)
is reported before any adapter I/O and before `blockHistory` or
`currentBlockNumber` change, but only after `currentBlockData` has been
cleared and `headBlockNumber` reset to 0 — the post-state is exactly the
pre-state with those two fields overwritten, independent of the adapter. -/
theorem claim5_theorem (a : Adapter) (n : Int) (s : ReaderState)
    (h : n < s.startAtBlock) :
    seekToBlock a n s =
      (Except.error "Cannot seek to block before configured startAtBlock.",
       { s with currentBlockData := none, headBlockNumber := 0 }) := by
  simp [seekToBlock, h]

/-- Witness for C5: the amended behaviour at a concrete invalid seek. -/
theorem claim5_witness :
    seekToBlock markerAdapter 0 seekState =
      (Except.error "Cannot seek to block before configured startAtBlock.",
       { seekState with currentBlockData := none, headBlockNumber := 0 }) :=
  claim5_theorem markerAdapter 0 seekState (by decide)

/-- C10: under the default history-exhausted handler, whenever the
rollback loop exits with empty history, `resolveFork` stops with the
handler error and never executes the final assignment that reads the
newest history entry: the post-state keeps the pre-call
`currentBlockNumber` untouched and its history is the empty loop output. -/
theorem claim10_theorem (a : Adapter) (s : ReaderState) (cur : Block)
    (hdata : s.currentBlockData = some cur)
    (hempty : (resolveForkLoop a cur s.blockHistory).2 = []) :
    resolveFork a s =
      (Except.error "Fork resolution history has been exhausted, and no history exhaustion handling has been implemented.",
       { s with
         currentBlockData := some (resolveForkLoop a cur s.blockHistory).1
         blockHistory := [] })
    ∧ (resolveFork a s).2.currentBlockNumber = s.currentBlockNumber := by
  have h0 : (resolveForkLoop a cur s.blockHistory).2.length = 0 := by
    rw [hempty]
    rfl
  constructor
  · simp [resolveFork, hdata, h0, hempty]
  · simp [resolveFork, hdata, h0]

/-- Witness for C10: a reader whose two-entry history is exhausted by a
deep fork keeps its `currentBlockNumber` and ends in the handler error. -/
theorem claim10_witness :
    resolveFork forkAdapter forkState =
      (Except.error "Fork resolution history has been exhausted, and no history exhaustion handling has been implemented.",
       { forkState with
         currentBlockData := some (resolveForkLoop forkAdapter (histBlock 9) forkState.blockHistory).1
         blockHistory := [] })
    ∧ (resolveFork forkAdapter forkState).2.currentBlockNumber = forkState.currentBlockNumber :=
  claim10_theorem forkAdapter forkState (histBlock 9) rfl (by decide)

/-- C6: first, in any rollback iteration where the previous hash of the
refetched block matches the hash of the newest history entry, the loop stops
with the refetched block adopted and the history unchanged (the matching
entry is not popped); second, whenever `resolveFork` exits successfully
(history non-empty), `currentBlockNumber` is set to one past the newest
remaining history entry block number. -/
theorem claim6_theorem :
    (∀ (a : Adapter) (cur prev : Block) (history : List Block),
        history.getLast? = some prev →
        (a.getBlock cur.blockInfo.blockNumber).blockInfo.previousBlockHash
          = prev.blockInfo.blockHash →
        resolveForkLoop a cur history
          = (a.getBlock cur.blockInfo.blockNumber, history))
    ∧ (∀ (a : Adapter) (s s2 : ReaderState) (u : Unit),
        resolveFork a s = (Except.ok u, s2) →
        ∃ lastB, s2.blockHistory.getLast? = some lastB
          ∧ s2.currentBlockNumber = lastB.blockInfo.blockNumber + 1) := by
  constructor
  · intro a cur prev history hlast hmatch
    cases hR : history.reverse with
    | nil =>
      rw [List.reverse_eq_nil_iff] at hR
      rw [hR] at hlast
      simp at hlast
    | cons p t =>
      have hp : p = prev := by
        have : history.getLast? = some p := by
          rw [← List.head?_reverse, hR]
          rfl
        rw [this] at hlast
        exact (Option.some.injEq _ _).mp hlast
      unfold resolveForkLoop
      rw [hR, hp]
      simp only [resolveForkRev]
      rw [if_pos hmatch]
      have : (prev :: t).reverse = history := by
        rw [← hp, ← hR, List.reverse_reverse]
      simp [this]
  · intro a s s2 u hrun
    cases hd : s.currentBlockData with
    | none =>
      simp only [resolveFork, hd] at hrun
      simp at hrun
    | some cur =>
      simp only [resolveFork, hd] at hrun
      by_cases h0 : (resolveForkLoop a cur s.blockHistory).2.length = 0
      · rw [dif_pos h0] at hrun
        simp at hrun
      · rw [dif_neg h0] at hrun
        have hs2 := congrArg Prod.snd hrun
        simp only at hs2
        rw [← hs2]
        refine ⟨(resolveForkLoop a cur s.blockHistory).2.getLast
          (List.ne_nil_of_length_pos (Nat.pos_of_ne_zero h0)), ?_, rfl⟩
        exact List.getLast?_eq_getLast _ _

/-- Witness for C6: both conjuncts instantiated on the hash-consistent
chain: a matching refetch at block 96 stops the loop with history
`[chainBlock 95]` kept, and a successful `resolveFork` from that state
resumes at block 96. -/
theorem claim6_witness :
    resolveForkLoop chainAdapter (chainBlock 96) [chainBlock 95]
      = (chainAdapter.getBlock 96, [chainBlock 95])
    ∧ (∃ lastB,
        (resolveFork chainAdapter resolveState).2.blockHistory.getLast? = some lastB
        ∧ (resolveFork chainAdapter resolveState).2.currentBlockNumber
            = lastB.blockInfo.blockNumber + 1) := by
  constructor
  · exact claim6_theorem.1 chainAdapter (chainBlock 96) (chainBlock 95) [chainBlock 95] rfl (by decide)
  · exact claim6_theorem.2 chainAdapter resolveState (resolveFork chainAdapter resolveState).2 () (by rfl)

/-- C2 (amended): whenever `nextBlock` returns `isNewBlock = true` and
`isRollback = false` from a state whose `currentBlockData` was present
and whose `blockHistory` was non-empty, the returned block chains onto
the prior current block: its `previousBlockHash` equals the `blockHash`
of that block.  (With an empty history the hash check is skipped by the
just-started bootstrap case, so the presence of `currentBlockData` alone
does not suffice.) -/
theorem claim2_theorem (a : Adapter) (s s2 : ReaderState) (b prior : Block)
    (hdata : s.currentBlockData = some prior)
    (hhist : s.blockHistory ≠ [])
    (hrun : nextBlock a s = (Except.ok (b, false, true), s2)) :
    b.blockInfo.previousBlockHash = prior.blockInfo.blockHash := by
  simp only [nextBlock] at hrun
  split at hrun
  · split at hrun
    next hcond =>
      -- commit path: the validation condition held
      have h1 := congrArg Prod.fst hrun
      simp only at h1
      obtain ⟨hb, -, -⟩ :=
        (finishNextBlock_spec _ false true).2 b false true h1
      rw [commitBlock_currentBlockData] at hb
      have hb2 := (Option.some.injEq _ _).mp hb
      simp only [resolveNegativeStart_currentBlockData, refreshHead_currentBlockData,
        hdata, resolveNegativeStart_blockHistory, refreshHead_blockHistory] at hcond
      rcases hcond with hmatch | hlen
      · rw [hb2] at hmatch
        exact hmatch.symm
      · exact absurd (List.length_eq_zero.mp hlen) hhist
    next hcond =>
      -- fork path returns isRollback = true, contradiction
      split at hrun
      next heq =>
        have h1 := congrArg Prod.fst hrun
        simp only at h1
        obtain ⟨-, hrb, -⟩ :=
          (finishNextBlock_spec _ true true).2 b false true h1
        simp at hrb
      next heq =>
        have h1 := congrArg Prod.fst hrun
        simp at h1
  · -- caught-up path returns isNewBlock = false, contradiction
    have h1 := congrArg Prod.fst hrun
    simp only at h1
    obtain ⟨-, -, hnb⟩ :=
      (finishNextBlock_spec _ false false).2 b false true h1
    simp at hnb

/-- C2: the claim as stated is false: from a reachable state with
`currentBlockData` present (block 1 of chain `A`) but empty history, a
reorganised adapter serves block 2 of chain `B`; the hash check is
skipped because history is empty, and the mismatched block is committed
with `isNewBlock = true, isRollback = false`. -/
theorem claim2_counterexample :
    claim2state.currentBlockData
      = some { blockInfo := { blockNumber := 1, blockHash := "A1", previousBlockHash := "A0" } }
    ∧ (nextBlock claim2adapter claim2state).1
        = Except.ok
            ({ blockInfo := { blockNumber := 2, blockHash := "B2", previousBlockHash := "B1" } },
             false, true)
    ∧ ("B1" : String) ≠ "A1" :=
  ⟨rfl, rfl, by decide⟩

/-- Witness for C2: on the hash-consistent chain, advancing from block 96
with block 95 in history returns block 97, which chains onto block 96. -/
theorem claim2_witness :
    (chainAdapter.getBlock 97).blockInfo.previousBlockHash
      = (chainBlock 96).blockInfo.blockHash :=
  claim2_theorem chainAdapter resolveState (nextBlock chainAdapter resolveState).2
    (chainAdapter.getBlock 97) (chainBlock 96) rfl (by decide) (by rfl)

/-- C8: `nextBlock` preserves the history bound
`blockHistory.length ≤ maxHistoryLength` on every path (commit, fork
resolution, caught-up, and error), and on a commit
(`isNewBlock = true, isRollback = false`) from a state with a prior
current block the new history is a suffix of the old history with the
prior block appended — trimming discards only the oldest entries — and
when the bound is at least 1 the prior current block itself survives as
the newest history entry. -/
theorem claim8_theorem (a : Adapter) (s : ReaderState)
    (r : Except String (Block × Bool × Bool)) (s2 : ReaderState)
    (hrun : nextBlock a s = (r, s2))
    (hbound : s.blockHistory.length ≤ s.maxHistoryLength) :
    s2.blockHistory.length ≤ s2.maxHistoryLength
    ∧ ∀ b prior, r = Except.ok (b, false, true) → s.currentBlockData = some prior →
        (∃ k, s2.blockHistory = (s.blockHistory ++ [prior]).drop k)
        ∧ (1 ≤ s.maxHistoryLength → s2.blockHistory.getLast? = some prior) := by
  simp only [nextBlock] at hrun
  split at hrun
  · split at hrun
    next hcond =>
      -- commit path
      have hsnd := congrArg Prod.snd hrun
      simp only at hsnd
      rw [(finishNextBlock_spec _ false true).1] at hsnd
      cases hd : s.currentBlockData with
      | none =>
        have hd2 : (resolveNegativeStart (refreshHead a s)).currentBlockData = none := by
          simp [hd]
        constructor
        · rw [← hsnd]
          simp only [commitBlock_maxHistoryLength, resolveNegativeStart_maxHistoryLength,
            refreshHead_maxHistoryLength]
          have hh := commitBlock_blockHistory_none
            (a.getBlock ((resolveNegativeStart (refreshHead a s)).currentBlockNumber + 1)) _ hd2
          simp only [resolveNegativeStart_blockHistory, refreshHead_blockHistory,
            resolveNegativeStart_maxHistoryLength, refreshHead_maxHistoryLength] at hh
          simp only [hh, List.length_drop]
          omega
        · intro b prior _ hd3
          simp at hd3
      | some prior0 =>
        have hd2 : (resolveNegativeStart (refreshHead a s)).currentBlockData = some prior0 := by
          simp [hd]
        have hh := commitBlock_blockHistory_some
          (a.getBlock ((resolveNegativeStart (refreshHead a s)).currentBlockNumber + 1)) _ _ hd2
        simp only [resolveNegativeStart_blockHistory, refreshHead_blockHistory,
          resolveNegativeStart_maxHistoryLength, refreshHead_maxHistoryLength] at hh
        constructor
        · rw [← hsnd]
          simp only [commitBlock_maxHistoryLength, resolveNegativeStart_maxHistoryLength,
            refreshHead_maxHistoryLength]
          simp only [hh, List.length_drop]
          omega
        · intro b prior hre hd3
          have hp : prior0 = prior := (Option.some.injEq _ _).mp hd3
          subst hp
          have hs2hist : s2.blockHistory
              = (s.blockHistory ++ [prior0]).drop
                  ((s.blockHistory ++ [prior0]).length - s.maxHistoryLength) := by
            rw [← hsnd]
            simpa using hh
          refine ⟨⟨_, hs2hist⟩, ?_⟩
          intro hmax
          rw [hs2hist]
          have hk : (s.blockHistory ++ [prior0]).length - s.maxHistoryLength
              ≤ s.blockHistory.length := by
            simp only [List.length_append, List.length_singleton]
            omega
          rw [List.drop_append_of_le_length hk]
          exact List.getLast?_concat _
    next hcond =>
      -- fork path
      split at hrun
      next u0 s3 heq =>
        have hspec := resolveFork_spec a (resolveNegativeStart (refreshHead a s))
        rw [heq] at hspec
        simp only at hspec
        have hsnd := congrArg Prod.snd hrun
        simp only at hsnd
        rw [(finishNextBlock_spec _ true true).1] at hsnd
        constructor
        · rw [← hsnd]
          simp only
          calc s3.blockHistory.length
              ≤ (resolveNegativeStart (refreshHead a s)).blockHistory.length := hspec.1
            _ = s.blockHistory.length := by simp
            _ ≤ s.maxHistoryLength := hbound
            _ = s3.maxHistoryLength := by
                rw [hspec.2.1]
                simp
        · intro b prior hre _
          have hfst := congrArg Prod.fst hrun
          simp only at hfst
          rw [hre] at hfst
          obtain ⟨-, hrb, -⟩ := (finishNextBlock_spec _ true true).2 b false true hfst
          simp at hrb
      next e s3 heq =>
        have hspec := resolveFork_spec a (resolveNegativeStart (refreshHead a s))
        rw [heq] at hspec
        simp only at hspec
        have hsnd := congrArg Prod.snd hrun
        simp only at hsnd
        have hfst := congrArg Prod.fst hrun
        simp only at hfst
        constructor
        · rw [← hsnd]
          calc s3.blockHistory.length
              ≤ (resolveNegativeStart (refreshHead a s)).blockHistory.length := hspec.1
            _ = s.blockHistory.length := by simp
            _ ≤ s.maxHistoryLength := hbound
            _ = s3.maxHistoryLength := by
                rw [hspec.2.1]
                simp
        · intro b prior hre _
          rw [hre] at hfst
          simp at hfst
  · -- caught-up path
    have hsnd := congrArg Prod.snd hrun
    simp only at hsnd
    rw [(finishNextBlock_spec _ false false).1] at hsnd
    constructor
    · rw [← hsnd]
      simpa using hbound
    · intro b prior hre _
      have hfst := congrArg Prod.fst hrun
      simp only at hfst
      rw [hre] at hfst
      obtain ⟨-, -, hnb⟩ := (finishNextBlock_spec _ false false).2 b false true hfst
      simp at hnb

/-- Witness for C8: a concrete commit on the hash-consistent chain: the
bound still holds, the new history is a suffix of the appended one, and
block 96 (the prior current block) is the newest history entry. -/
theorem claim8_witness :
    (nextBlock chainAdapter resolveState).2.blockHistory.length
      ≤ (nextBlock chainAdapter resolveState).2.maxHistoryLength
    ∧ (∃ k, (nextBlock chainAdapter resolveState).2.blockHistory
        = (resolveState.blockHistory ++ [chainBlock 96]).drop k)
    ∧ (nextBlock chainAdapter resolveState).2.blockHistory.getLast? = some (chainBlock 96) := by
  have h := claim8_theorem chainAdapter resolveState
    (Except.ok (chainAdapter.getBlock 97, false, true))
    (nextBlock chainAdapter resolveState).2 (by rfl) (by decide)
  exact ⟨h.1, (h.2 (chainAdapter.getBlock 97) (chainBlock 96) rfl rfl).1,
    (h.2 (chainAdapter.getBlock 97) (chainBlock 96) rfl rfl).2 (by decide)⟩

/-- C9: caught up to the tip — when the internal head equals
`currentBlockNumber` and the adapter keeps reporting that same (positive)
head, `nextBlock` returns the previous current block with
`isRollback = false` and `isNewBlock = false`, leaves
`currentBlockNumber`, `currentBlockData` and `blockHistory` unchanged,
and the post-state is a fixed point: every further call returns the very
same block and state. -/
theorem claim9_theorem (a : Adapter) (s : ReaderState) (b : Block)
    (hdata : s.currentBlockData = some b)
    (hhead : s.headBlockNumber = s.currentBlockNumber)
    (hadapter : a.getHeadBlockNumber = s.currentBlockNumber)
    (hpos : 0 < s.currentBlockNumber) :
    ∃ s2, nextBlock a s = (Except.ok (b, false, false), s2)
      ∧ s2.currentBlockNumber = s.currentBlockNumber
      ∧ s2.currentBlockData = s.currentBlockData
      ∧ s2.blockHistory = s.blockHistory
      ∧ nextBlock a s2 = (Except.ok (b, false, false), s2) := by
  have key : ∀ t : ReaderState, t.currentBlockData = some b →
      t.headBlockNumber = t.currentBlockNumber →
      a.getHeadBlockNumber = t.currentBlockNumber →
      0 < t.currentBlockNumber →
      nextBlock a t = (Except.ok (b, false, false),
        { t with
          headBlockNumber := a.getHeadBlockNumber
          isFirstBlock := decide (t.currentBlockNumber = t.startAtBlock) }) := by
    intro t h1 h2 h3 h4
    simp only [nextBlock]
    have href : refreshHead a t = { t with headBlockNumber := a.getHeadBlockNumber } := by
      unfold refreshHead
      rw [if_pos (Or.inl h2.symm)]
    rw [href]
    have hneg : resolveNegativeStart { t with headBlockNumber := a.getHeadBlockNumber }
        = { t with headBlockNumber := a.getHeadBlockNumber } := by
      unfold resolveNegativeStart
      rw [if_neg]
      simp only [not_and]
      intro hc
      omega
    rw [hneg]
    have hcond : ¬ (({ t with headBlockNumber := a.getHeadBlockNumber } : ReaderState).currentBlockNumber
        < ({ t with headBlockNumber := a.getHeadBlockNumber } : ReaderState).headBlockNumber) := by
      simp only
      omega
    rw [if_neg hcond]
    unfold finishNextBlock
    simp [h1]
  refine ⟨_, key s hdata hhead hadapter hpos, by simp, by simp, by simp, ?_⟩
  have h2 := key
    { s with
      headBlockNumber := a.getHeadBlockNumber
      isFirstBlock := decide (s.currentBlockNumber = s.startAtBlock) }
    (by simpa using hdata) (by simpa using hadapter) (by simpa using hadapter)
    (by simpa using hpos)
  rw [h2]

/-- Witness for C9: a reader caught up at block 100 of the
hash-consistent chain keeps returning block 100 with both flags false. -/
theorem claim9_witness :
    ∃ s2, nextBlock chainAdapter
        { headBlockNumber := 100, currentBlockNumber := 100, isFirstBlock := false,
          currentBlockData := some (chainBlock 100), blockHistory := [chainBlock 99],
          startAtBlock := 1, onlyIrreversible := false, maxHistoryLength := 600 }
        = (Except.ok (chainBlock 100, false, false), s2)
      ∧ s2.currentBlockNumber = 100
      ∧ s2.currentBlockData = some (chainBlock 100)
      ∧ s2.blockHistory = [chainBlock 99]
      ∧ nextBlock chainAdapter s2 = (Except.ok (chainBlock 100, false, false), s2) :=
  claim9_theorem chainAdapter
    { headBlockNumber := 100, currentBlockNumber := 100, isFirstBlock := false,
      currentBlockData := some (chainBlock 100), blockHistory := [chainBlock 99],
      startAtBlock := 1, onlyIrreversible := false, maxHistoryLength := 600 }
    (chainBlock 100) rfl rfl rfl (by decide)

/-- C1 (amended): constructing with `startAtBlock = -5` against head 100
makes the first `nextBlock` yield block 95 (= 100 + (-5): the
constructor sets `currentBlockNumber = -6`, the first call wraps it to
94 and fetches 95), with `isFirstBlock = true` after that call and false
after every later call. -/
theorem claim1_amended_theorem :
    (nextBlock chainAdapter tailStart).1 = Except.ok (chainBlock 95, false, true)
    ∧ (chainBlock 95).blockInfo.blockNumber = 100 + (-5)
    ∧ (nextBlock chainAdapter tailStart).2.isFirstBlock = true
    ∧ ∀ k : Nat,
        (runAdvance chainAdapter (nextBlock chainAdapter tailStart).2 (k + 1)).isFirstBlock
          = false := by
  refine ⟨rfl, by decide, rfl, ?_⟩
  have main : ∀ k : Nat,
      tailInv (runAdvance chainAdapter (nextBlock chainAdapter tailStart).2 (k + 1))
      ∧ (runAdvance chainAdapter (nextBlock chainAdapter tailStart).2 (k + 1)).isFirstBlock
          = false := by
    intro k
    induction k with
    | zero =>
      constructor
      · unfold tailInv
        refine ⟨rfl, rfl, by decide, by decide, rfl⟩
      · rfl
    | succ n ih => exact tailInv_step _ ih.1
  exact fun k => (main k).2
